import Mathlib

/-!
# Shallow embedding of `src/battery.rs` (gabrielvincent/batty)

This file embeds the battery-reading module of the repository into Lean 4
and proves properties about it.

Modelling conventions:

* The filesystem visible to the program is a pure map `FS` from full path
  strings to either the file's textual content or an `IOError` (mirroring
  `std::fs::read_to_string`).  All reads inside one construction/refresh see
  the same frozen filesystem, matching the single-threaded, synchronous code.
* Rust `io::Error` is modelled as an `ErrorKind` plus its display message.
  `io::Error::new(kind, msg)` becomes `⟨kind, msg⟩`; the `Display` of an
  error is its `msg` field.
* Rust `f32` arithmetic is idealized as exact rational arithmetic extended
  with infinities and NaN (`F32` below): `finite`/`finite` division by a
  nonzero denominator is exact instead of rounded, while division by zero
  follows the IEEE-754 non-finite rules.  The claims under study speak of
  results "within floating-point tolerance", so only the finite/non-finite
  distinction and the exact ratio matter here.
* Rust `str::trim`, `str::to_lowercase`, `str::starts_with`,
  `u8/u32::from_str` and `Vec::join` are re-implemented below on `List Char`
  for ASCII inputs (`rustTrim`, `rustToLowercase`, `rustStartsWith`,
  `rustParseUInt`, `joinComma`); the Unicode cases never arise in the
  attribute files the module reads.
-/

set_option autoImplicit false

namespace Batty

/-- The `io::ErrorKind` values the module can observe or construct. -/
inductive ErrorKind where
  | notFound
  | permissionDenied
  | invalidData
  | other
  deriving DecidableEq, Repr

/-- A Rust `io::Error`: a kind together with its display message. -/
structure IOError where
  kind : ErrorKind
  msg : String
  deriving DecidableEq, Repr

/-- The filesystem as seen by `fs::read_to_string`: full path ↦ content or error. -/
def FS : Type := String → Except IOError String

/-- The `Path::join` for string paths (`bat_path.join(file_name)`). -/
def pathJoin (base name : String) : String := base ++ "/" ++ name

/-- Rust `char::is_whitespace`, restricted to the ASCII whitespace characters. -/
def rustIsWhitespace (c : Char) : Bool :=
  c == ' ' || c == '\t' || c == '\n' || c == '\r' || c == '\x0b' || c == '\x0c'

/-- Rust `str::trim`: strip leading and trailing whitespace. -/
def rustTrim (s : String) : String :=
  ⟨((s.data.dropWhile rustIsWhitespace).reverse.dropWhile rustIsWhitespace).reverse⟩

/-- Rust `str::to_lowercase` (ASCII case folding). -/
def rustToLowercase (s : String) : String :=
  ⟨s.data.map Char.toLower⟩

/-- Rust `str::starts_with` for a string pattern. -/
def rustStartsWith (s pat : String) : Bool :=
  pat.data.isPrefixOf s.data

/-- Rust `Vec::<&str>::join(", ")` as used in the multi-candidate error message. -/
def joinComma : List String → String
  | [] => ""
  | [x] => x
  | x :: rest => x ++ ", " ++ joinComma rest

/-- Rust `u8/u16/u32::from_str` idealized over `Nat`: an optional leading `+`,
then a nonempty run of ASCII digits, whose value must fit in `width` bits.
The error strings are the `Display` texts of `ParseIntError`. -/
def parseDigitsBounded (width : Nat) (ds : List Char) : Except String Nat :=
  if ds = [] then .error "invalid digit found in string"
  else if ds.all Char.isDigit then
    let n := ds.foldl (fun acc c => acc * 10 + (c.toNat - 48)) 0
    if n < 2 ^ width then .ok n
    else .error "number too large to fit in target type"
  else .error "invalid digit found in string"

def rustParseUInt (width : Nat) (s : String) : Except String Nat :=
  if s.data = [] then .error "cannot parse integer from empty string"
  else parseDigitsBounded width (if s.data.head? = some '+' then s.data.tail else s.data)

/-- Idealized `f32`: exact rationals plus the IEEE-754 non-finite values. -/
inductive F32 where
  | finite (q : ℚ)
  | posInf
  | negInf
  | nan
  deriving DecidableEq, Repr

/-- The `n as f32` for an unsigned integer (exact in our idealization). -/
def F32.ofNat (n : Nat) : F32 := .finite n

/-- IEEE-754 division, idealized: finite/finite with nonzero denominator is the
exact rational quotient; division by zero yields ±∞ or NaN. -/
def F32.div : F32 → F32 → F32
  | .nan, _ => .nan
  | _, .nan => .nan
  | .finite a, .finite b =>
    if b = 0 then
      if a = 0 then .nan
      else if 0 < a then .posInf
      else .negInf
    else .finite (a / b)
  | .finite _, .posInf => .finite 0
  | .finite _, .negInf => .finite 0
  | .posInf, .finite b => if 0 ≤ b then .posInf else .negInf
  | .negInf, .finite b => if 0 ≤ b then .negInf else .posInf
  | .posInf, .posInf => .nan
  | .posInf, .negInf => .nan
  | .negInf, .posInf => .nan
  | .negInf, .negInf => .nan

/-- IEEE-754 multiplication, idealized on exact rationals. -/
def F32.mul : F32 → F32 → F32
  | .nan, _ => .nan
  | _, .nan => .nan
  | .finite a, .finite b => .finite (a * b)
  | .finite a, .posInf => if a = 0 then .nan else if 0 < a then .posInf else .negInf
  | .finite a, .negInf => if a = 0 then .nan else if 0 < a then .negInf else .posInf
  | .posInf, .finite b => if b = 0 then .nan else if 0 < b then .posInf else .negInf
  | .negInf, .finite b => if b = 0 then .nan else if 0 < b then .negInf else .posInf
  | .posInf, .posInf => .posInf
  | .posInf, .negInf => .negInf
  | .negInf, .posInf => .negInf
  | .negInf, .negInf => .posInf

/-- The `f32::is_finite`. -/
def F32.isFinite : F32 → Bool
  | .finite _ => true
  | _ => false

/-- The `BatteryStatus` from the source. -/
inductive BatteryStatus where
  | Charging
  | NotCharging
  | Unknown
  deriving DecidableEq, Repr

/-- The `BatteryStatus::as_str`. -/
def BatteryStatus.as_str : BatteryStatus → String
  | .Charging => "charging"
  | .NotCharging => "not charging"
  | .Unknown => "unknown"

/-- The `BatteryAttribute` from the source. -/
inductive BatteryAttribute where
  | CurrPower
  | TotalPower
  | Status
  | Cycles
  | DesignPower
  deriving DecidableEq, Repr

/-- The `BatteryAttribute::file_names`: candidate file names in order of preference
(energy-based first, charge-based second where applicable). -/
def BatteryAttribute.file_names : BatteryAttribute → List String
  | .CurrPower => ["energy_now", "charge_now"]
  | .TotalPower => ["energy_full", "charge_full"]
  | .DesignPower => ["energy_full_design", "charge_full_design"]
  | .Status => ["status"]
  | .Cycles => ["cycle_count"]

/-- The `Display` impl for `BatteryAttribute`. -/
def BatteryAttribute.display : BatteryAttribute → String
  | .CurrPower => "current power"
  | .TotalPower => "total power"
  | .Status => "status"
  | .Cycles => "cycle count"
  | .DesignPower => "design power"

/-- The `for file_name in file_names` loop body of `read_str_battery_attribute`:
try each candidate in order, returning the first readable content and otherwise
the final value of `last_error`. -/
def tryRead (fs : FS) (bat_path : String) :
    List String → Option (String × IOError) → Except (Option (String × IOError)) String
  | [], last => .error last
  | n :: rest, last =>
    match fs (pathJoin bat_path n) with
    | .ok content => .ok content
    | .error e => tryRead fs bat_path rest (some (pathJoin bat_path n, e))

/-- The `read_str_battery_attribute` from the source. -/
def read_str_battery_attribute (fs : FS) (bat_path : String) (attr : BatteryAttribute) :
    Except IOError String :=
  let file_names := attr.file_names
  match tryRead fs bat_path file_names none with
  | .ok content => .ok content
  | .error last =>
    if file_names.length > 1 then
      .error ⟨.notFound,
        "Failed to read " ++ attr.display ++ " (tried: " ++ joinComma file_names ++ ")"⟩
    else
      match last with
      | some (path, e) => .error ⟨e.kind, "Failed to read " ++ path ++ ": " ++ e.msg⟩
      | none => .error ⟨.notFound, "No file names configured for " ++ attr.display⟩

/-- The `read_num_battery_attribute::<T>` from the source; `width` is the bit width
of the requested unsigned integer type `T` (8 for `u8`, 32 for `u32`). -/
def read_num_battery_attribute (width : Nat) (fs : FS) (bat_path : String)
    (attr : BatteryAttribute) : Except IOError Nat :=
  match read_str_battery_attribute fs bat_path attr with
  | .error e => .error e
  | .ok val =>
    let trimmed := rustTrim val
    match rustParseUInt width trimmed with
    | .ok n => .ok n
    | .error e =>
      .error ⟨.invalidData, "invalid battery attribute value: " ++ trimmed ++ " (" ++ e ++ ")"⟩

/-- Split a character list into the groups between `/` separators. -/
def splitSlash : List Char → List (List Char)
  | [] => [[]]
  | c :: rest =>
    match splitSlash rest with
    | [] => [[]]
    | g :: gs => if c = '/' then [] :: g :: gs else (c :: g) :: gs

/-- The `Path::file_name().and_then(|n| n.to_str()).unwrap_or("unknown")`: the last
nonempty `/`-separated component of the path (idealized; the `..`/root cases in
which Rust returns `None` map to `"unknown"`). -/
def fileName (p : String) : String :=
  match ((splitSlash p.data).filter (fun c => c ≠ [])).getLast? with
  | some c => if c = ['.', '.'] then "unknown" else ⟨c⟩
  | none => "unknown"

/-- The `Battery` struct from the source.  Power fields are the parsed `u32`
values (the parser enforces the `2^32` bound), `cycles` the parsed `u8`. -/
structure Battery where
  path : String
  total_power : Nat
  curr_power : Nat
  status : BatteryStatus
  cycles : Option Nat
  battery_health : Option F32
  deriving DecidableEq, Repr

/-- The `status` step of `Battery::new` (source lines 116–129): the classified
status together with the warnings list as of this step (empty before it). -/
def statusPair (fs : FS) (path : String) : BatteryStatus × List String :=
  match read_str_battery_attribute fs path .Status with
  | .ok status_str =>
    (if rustToLowercase (rustTrim status_str) = "charging" then .Charging
     else .NotCharging, [])
  | .error e =>
    (.Unknown,
     ["Failed to read status for " ++ fileName path ++ ": " ++ e.msg ++ ". Using 'unknown'."])

/-- The `battery_health` step of `Battery::new` (source lines 133–145):
the health value together with the warnings list, threading the warnings
accumulated so far. -/
def healthPair (fs : FS) (path : String) (total_power : Nat) (warnings : List String) :
    Option F32 × List String :=
  match (read_num_battery_attribute 32 fs path .DesignPower).toOption with
  | some design =>
    if 0 < design then
      (some (F32.mul (F32.div (F32.ofNat total_power) (F32.ofNat design)) (F32.finite 100)),
       warnings)
    else
      (none,
       warnings ++ ["Failed to read design power for " ++ fileName path
                      ++ ". Battery health unavailable."])
  | none =>
    (none,
     warnings ++ ["Failed to read design power for " ++ fileName path
                    ++ ". Battery health unavailable."])

/-- The `Battery::new` from the source: returns the battery and the collected
warnings, or the first fatal error. -/
def Battery.new (fs : FS) (path : String) : Except IOError (Battery × List String) :=
  match read_num_battery_attribute 32 fs path .CurrPower with
  | .error e =>
    .error ⟨e.kind,
      "Failed to read " ++ BatteryAttribute.CurrPower.display ++ " for " ++ fileName path
        ++ ": " ++ e.msg⟩
  | .ok curr_power =>
    match read_num_battery_attribute 32 fs path .TotalPower with
    | .error e =>
      .error ⟨e.kind,
        "Failed to read " ++ BatteryAttribute.TotalPower.display ++ " for " ++ fileName path
          ++ ": " ++ e.msg⟩
    | .ok total_power =>
      let sw := statusPair fs path
      let cycles : Option Nat := (read_num_battery_attribute 8 fs path .Cycles).toOption
      let hw := healthPair fs path total_power sw.2
      .ok
        ({ path := path
           curr_power := curr_power
           total_power := total_power
           status := sw.1
           cycles := cycles
           battery_health := hw.1 },
         hw.2)

/-- The `Battery::refresh`: the post-call battery together with the call's result.
The Rust `?` returns before `*self = battery` on failure, so the old snapshot
is kept in that case. -/
def Battery.refresh (fs : FS) (b : Battery) : Battery × Except IOError (List String) :=
  match Battery.new fs b.path with
  | .ok (battery, warnings) => (battery, .ok warnings)
  | .error e => (b, .error e)

/-- The `Battery::charge_percentage`. -/
def Battery.charge_percentage (b : Battery) : F32 :=
  F32.mul (F32.div (F32.ofNat b.curr_power) (F32.ofNat b.total_power)) (F32.finite 100)

/-- The `Battery::health_percentage`. -/
def Battery.health_percentage (b : Battery) : Option F32 :=
  b.battery_health

/-- One entry produced by `fs::read_dir`: its file name decoded as UTF-8 when
possible (`None` models a non-UTF-8 name, for which `to_str()` fails). -/
structure DirEntry where
  name : Option String
  deriving DecidableEq, Repr

/-- The result of listing a directory: `none` when `read_dir` itself fails,
otherwise the entry stream, each element being an entry or a per-entry error. -/
def DirListing : Type := Option (List (Except IOError DirEntry))

/-- The `find_batteries` from the source: `listing` is what `fs::read_dir` yields
for `power_supply_path`.  `entry.path()` is the root path joined with the
entry's name. -/
def find_batteries (power_supply_path : String) (listing : DirListing) : List String :=
  match listing with
  | none => []
  | some entries =>
    ((entries.filterMap Except.toOption).filter
        (fun e => match e.name with
          | some n => rustStartsWith n "BAT"
          | none => false)).filterMap
      (fun e => e.name.map (fun n => pathJoin power_supply_path n))

/-! ## Specification-side definitions (for refinement claims) -/

/-- Modelled from the spec: "attempt to read each candidate file's full textual
content in order; return the content of the first one that is readable,
short-circuiting".  Used only to compare against `read_str_battery_attribute`. -/
def firstReadable (fs : FS) (bat_path : String) : List String → Option String
  | [] => none
  | n :: rest =>
    match fs (pathJoin bat_path n) with
    | .ok content => some content
    | .error _ => firstReadable fs bat_path rest

/-! ## Concrete fixtures used by witnesses and counterexamples -/

/-- A device directory path used in concrete instances. -/
def BAT0 : String := "/sys/class/power_supply/BAT0"

/-- A filesystem on which every read fails as missing. -/
def fsEmpty : FS := fun _ => .error ⟨.notFound, "No such file or directory (os error 2)"⟩

/-- A filesystem on which every read fails with a permission error. -/
def fsPermDenied : FS := fun _ => .error ⟨.permissionDenied, "Permission denied (os error 13)"⟩

/-- A healthy energy-based device directory, without its cycle-count file. -/
def fsCore : FS := fun q =>
  if q = pathJoin BAT0 "energy_now" then .ok "1000\n"
  else if q = pathJoin BAT0 "energy_full" then .ok "4000\n"
  else if q = pathJoin BAT0 "energy_full_design" then .ok "5000\n"
  else if q = pathJoin BAT0 "status" then .ok "Charging\n"
  else .error ⟨.notFound, "No such file or directory (os error 2)"⟩

/-- The `fsCore` plus a readable, in-range cycle-count file. -/
def fsGood : FS := fun q =>
  if q = pathJoin BAT0 "cycle_count" then .ok "42\n" else fsCore q

/-- The `fsCore` plus a cycle-count file holding a decimal value above `u8::MAX`. -/
def fsCycle300 : FS := fun q =>
  if q = pathJoin BAT0 "cycle_count" then .ok "300\n" else fsCore q

/-- A device directory whose current-power file holds non-numeric text. -/
def fsBadNum : FS := fun q =>
  if q = pathJoin BAT0 "energy_now" then .ok "abc\n" else fsCore q

/-- A snapshot with a positive total power. -/
def batFull : Battery :=
  { path := BAT0, total_power := 4, curr_power := 1, status := .NotCharging,
    cycles := none, battery_health := none }

/-- A snapshot whose total power is zero. -/
def batZero : Battery :=
  { path := BAT0, total_power := 0, curr_power := 5, status := .Unknown,
    cycles := none, battery_health := none }

/-- The battery `Battery::new` produces from `fsGood` (its health value is
spelled as the computation performs it; it equals `F32.finite 80`). -/
def bGood : Battery :=
  { path := BAT0, total_power := 4000, curr_power := 1000, status := .Charging,
    cycles := some 42,
    battery_health :=
      some (F32.mul (F32.div (F32.ofNat 4000) (F32.ofNat 5000)) (F32.finite 100)) }

/-- The battery `Battery::new` produces from `fsCycle300` (and from `fsCore`):
as `bGood` but with no cycle count. -/
def bGood300 : Battery :=
  { path := BAT0, total_power := 4000, curr_power := 1000, status := .Charging,
    cycles := none,
    battery_health :=
      some (F32.mul (F32.div (F32.ofNat 4000) (F32.ofNat 5000)) (F32.finite 100)) }

/-! ## Helper lemmas -/

theorem exceptToOption_eq_some {ε α : Type} (r : Except ε α) (a : α) :
    r.toOption = some a ↔ r = .ok a := by
  cases r <;> simp [Except.toOption]

theorem exceptToOption_eq_none {ε α : Type} (r : Except ε α) :
    r.toOption = none ↔ ∃ e, r = .error e := by
  cases r <;> simp [Except.toOption]

theorem tryRead_toOption (fs : FS) (p : String) (ns : List String)
    (last : Option (String × IOError)) :
    (tryRead fs p ns last).toOption = firstReadable fs p ns := by
  induction ns generalizing last with
  | nil => rfl
  | cons n rest ih =>
    simp only [tryRead, firstReadable]
    cases fs (pathJoin p n) with
    | ok c => rfl
    | error e => exact ih _

theorem firstReadable_eq_none (fs : FS) (p : String) (ns : List String)
    (hall : ∀ n ∈ ns, (fs (pathJoin p n)).toOption = none) :
    firstReadable fs p ns = none := by
  induction ns with
  | nil => rfl
  | cons n rest ih =>
    simp only [firstReadable]
    have h := hall n (List.mem_cons_self n rest)
    cases hfs : fs (pathJoin p n) with
    | ok c => rw [hfs] at h; simp [Except.toOption] at h
    | error e => exact ih (fun m hm => hall m (List.mem_cons_of_mem _ hm))

theorem mem_healthPair_of_mem (fs : FS) (p : String) (t : Nat) (warnings : List String)
    (msg : String) (h : msg ∈ warnings) : msg ∈ (healthPair fs p t warnings).2 := by
  unfold healthPair
  cases (read_num_battery_attribute 32 fs p .DesignPower).toOption with
  | some design =>
    by_cases hd : 0 < design
    · simpa [hd] using h
    · simp [hd, List.mem_append, h]
  | none => simp [List.mem_append, h]

theorem read_num_congr (width : Nat) (fs fs2 : FS) (p : String) (attr : BatteryAttribute)
    (h : read_str_battery_attribute fs p attr = read_str_battery_attribute fs2 p attr) :
    read_num_battery_attribute width fs p attr = read_num_battery_attribute width fs2 p attr := by
  unfold read_num_battery_attribute
  rw [h]

theorem new_ok_inv (fs : FS) (p : String) (b : Battery) (w : List String)
    (h : Battery.new fs p = .ok (b, w)) :
    ∃ c t, read_num_battery_attribute 32 fs p .CurrPower = .ok c
      ∧ read_num_battery_attribute 32 fs p .TotalPower = .ok t
      ∧ b = { path := p, total_power := t, curr_power := c, status := (statusPair fs p).1,
              cycles := (read_num_battery_attribute 8 fs p .Cycles).toOption,
              battery_health := (healthPair fs p t (statusPair fs p).2).1 }
      ∧ w = (healthPair fs p t (statusPair fs p).2).2 := by
  cases hc : read_num_battery_attribute 32 fs p .CurrPower with
  | error e => simp [Battery.new, hc] at h
  | ok c =>
    cases ht : read_num_battery_attribute 32 fs p .TotalPower with
    | error e => simp [Battery.new, hc, ht] at h
    | ok t =>
      simp only [Battery.new, hc, ht, Except.ok.injEq, Prod.mk.injEq] at h
      exact ⟨c, t, rfl, rfl, h.1.symm, h.2.symm⟩

theorem parseDigitsBounded8_overflow (ds : List Char) (n : Nat)
    (h32 : parseDigitsBounded 32 ds = .ok n) (hbig : 255 < n) :
    parseDigitsBounded 8 ds = .error "number too large to fit in target type" := by
  unfold parseDigitsBounded at h32 ⊢
  by_cases h1 : ds = []
  · simp [h1] at h32
  · simp only [if_neg h1] at h32 ⊢
    by_cases h2 : ds.all Char.isDigit = true
    · simp only [h2, if_true] at h32 ⊢
      by_cases h3 : ds.foldl (fun acc c => acc * 10 + (c.toNat - 48)) 0 < 2 ^ 32
      · rw [if_pos h3] at h32
        cases h32
        rw [if_neg (by omega)]
      · rw [if_neg h3] at h32
        cases h32
    · simp [h2] at h32

theorem parseUInt8_overflow (s : String) (n : Nat)
    (h32 : rustParseUInt 32 s = .ok n) (hbig : 255 < n) :
    rustParseUInt 8 s = .error "number too large to fit in target type" := by
  unfold rustParseUInt at h32 ⊢
  by_cases h1 : s.data = []
  · simp [h1] at h32
  · simp only [if_neg h1] at h32 ⊢
    exact parseDigitsBounded8_overflow _ n h32 hbig

/-! ## Claims -/

/-- C2: for every Battery with `curr_power = c` and `total_power = t` where
`t > 0`, `charge_percentage()` returns `c / t * 100` (exact in the rational
idealization of `f32`), computed from the stored fields; for `t = 0` no guard
is applied and the result is non-finite. -/
theorem charge_percentage_spec (b : Battery) :
    (0 < b.total_power →
      b.charge_percentage = F32.finite ((b.curr_power : ℚ) / (b.total_power : ℚ) * 100))
    ∧ (b.total_power = 0 → b.charge_percentage.isFinite = false) := by
  constructor
  · intro ht
    have hne : ((b.total_power : ℚ)) ≠ 0 := Nat.cast_ne_zero.mpr ht.ne'
    simp [Battery.charge_percentage, F32.ofNat, F32.div, F32.mul, hne]
  · intro ht
    rcases Nat.eq_zero_or_pos b.curr_power with hc | hc
    · simp [Battery.charge_percentage, F32.ofNat, F32.div, F32.mul, F32.isFinite, ht, hc]
    · have hcq : (0:ℚ) < (b.curr_power : ℚ) := by exact_mod_cast hc
      simp [Battery.charge_percentage, F32.ofNat, F32.div, F32.mul, F32.isFinite, ht,
        hcq, hcq.ne']

/-- Witness for C2: a battery with `curr_power = 1, total_power = 4` yields
25 %, and one with `total_power = 0` yields a non-finite value. -/
theorem charge_percentage_spec_witness :
    batFull.charge_percentage = F32.finite 25
    ∧ batZero.charge_percentage.isFinite = false := by
  constructor
  · have h := (charge_percentage_spec batFull).1 (by decide)
    rw [h]
    norm_num [batFull]
  · exact (charge_percentage_spec batZero).2 rfl

/-- C3: attribute resolution returns the content of the first readable
candidate in the attribute's fixed order (refinement against the spec-side
`firstReadable`), and in particular a readable `energy_now` is used for the
current-power attribute regardless of `charge_now`. -/
theorem resolution_first_readable (fs : FS) (p : String) (attr : BatteryAttribute) :
    (read_str_battery_attribute fs p attr).toOption = firstReadable fs p attr.file_names
    ∧ (∀ c, fs (pathJoin p "energy_now") = .ok c →
        read_str_battery_attribute fs p .CurrPower = .ok c) := by
  constructor
  · have h := tryRead_toOption fs p attr.file_names none
    cases htr : tryRead fs p attr.file_names none with
    | ok content =>
      rw [htr] at h
      simp only [read_str_battery_attribute, htr]
      simpa [Except.toOption] using h
    | error last =>
      rw [htr] at h
      simp only [Except.toOption] at h
      simp only [read_str_battery_attribute, htr]
      split
      · simpa [Except.toOption] using h
      · split <;> simpa [Except.toOption] using h
  · intro c hc
    simp [read_str_battery_attribute, BatteryAttribute.file_names, tryRead, hc]

/-- Witness for C3: on `fsGood` (which exposes `energy_now`), the current-power
attribute resolves to the `energy_now` content. -/
theorem resolution_first_readable_witness :
    read_str_battery_attribute fsGood BAT0 .CurrPower = .ok "1000\n" :=
  (resolution_first_readable fsGood BAT0 .CurrPower).2 "1000\n" rfl

/-- C8: `find_batteries` returns exactly the paths of the readable entries
whose (UTF-8) names start with `"BAT"`, and an unlistable root yields the
empty sequence. -/
theorem find_batteries_spec (root : String) (listing : DirListing) :
    (listing = none → find_batteries root listing = [])
    ∧ (∀ q, q ∈ find_batteries root listing ↔
        ∃ entries, listing = some entries ∧
          ∃ n, Except.ok (DirEntry.mk (some n)) ∈ entries
            ∧ rustStartsWith n "BAT" = true ∧ q = pathJoin root n) := by
  constructor
  · intro h
    rw [h]
    rfl
  · intro q
    cases listing with
    | none => simp [find_batteries]
    | some entries =>
      simp only [find_batteries, List.mem_filterMap, List.mem_filter, Option.map_eq_some',
        Option.some.injEq, exceptToOption_eq_some]
      constructor
      · rintro ⟨e, ⟨⟨r, hr, hre⟩, hkeep⟩, n, hn, hq⟩
        subst hre
        cases hname : e.name with
        | none => rw [hname] at hkeep; simp at hkeep
        | some m =>
          rw [hname] at hn hkeep
          cases hn
          exact ⟨entries, rfl, n, by rw [← hname]; exact hr, hkeep, hq.symm⟩
      · rintro ⟨es, hes, n, hmem, hstart, hq⟩
        cases hes
        exact ⟨⟨some n⟩, ⟨⟨.ok ⟨some n⟩, hmem, rfl⟩, hstart⟩, n, rfl, hq.symm⟩

/-- Witness for C8: a root that cannot be listed yields the empty sequence. -/
theorem find_batteries_spec_witness :
    find_batteries "/sys/class/power_supply" none = [] :=
  (find_batteries_spec "/sys/class/power_supply" none).1 rfl

/-- C5 counterexample: when the single candidate file of the status attribute
is unreadable because of a permission error, resolution fails, but the error is
classified with the underlying `PermissionDenied` kind — not `NotFound` as the
claim's opening clause states. -/
theorem resolution_failure_kind_counterexample :
    (fsPermDenied (pathJoin BAT0 "status")).toOption = none
    ∧ read_str_battery_attribute fsPermDenied BAT0 .Status
        = .error ⟨.permissionDenied,
            "Failed to read /sys/class/power_supply/BAT0/status: Permission denied (os error 13)"⟩
    ∧ ErrorKind.permissionDenied ≠ ErrorKind.notFound :=
  ⟨rfl, rfl, by decide⟩

/-- C5 (amended): when none of an attribute's candidate files are readable,
resolution fails; with multiple candidates the error is NotFound-classified and
its message reports all candidate names tried (joined); with exactly one
candidate the error carries the underlying I/O error's kind and its message
reports the file path and the underlying error. -/
theorem resolution_failure_shapes (fs : FS) (p : String) (attr : BatteryAttribute) :
    (∀ n e, attr.file_names = [n] → fs (pathJoin p n) = .error e →
      read_str_battery_attribute fs p attr
        = .error ⟨e.kind, "Failed to read " ++ pathJoin p n ++ ": " ++ e.msg⟩)
    ∧ (1 < attr.file_names.length →
        (∀ n ∈ attr.file_names, (fs (pathJoin p n)).toOption = none) →
        read_str_battery_attribute fs p attr
          = .error ⟨.notFound,
              "Failed to read " ++ attr.display ++ " (tried: "
                ++ joinComma attr.file_names ++ ")"⟩) := by
  constructor
  · intro n e hfn hread
    simp [read_str_battery_attribute, hfn, tryRead, hread]
  · intro hlen hall
    have hnone : (tryRead fs p attr.file_names none).toOption = none := by
      rw [tryRead_toOption]
      exact firstReadable_eq_none fs p attr.file_names hall
    obtain ⟨last, hlast⟩ := (exceptToOption_eq_none _).mp hnone
    simp [read_str_battery_attribute, hlast, hlen]

/-- Witness for C5 (amended): the single-candidate cycle-count attribute keeps
the permission-denied kind, while the two-candidate current-power attribute on
an empty directory reports both candidate names with kind NotFound. -/
theorem resolution_failure_shapes_witness :
    read_str_battery_attribute fsPermDenied BAT0 .Cycles
      = .error ⟨.permissionDenied,
          "Failed to read /sys/class/power_supply/BAT0/cycle_count: Permission denied (os error 13)"⟩
    ∧ read_str_battery_attribute fsEmpty BAT0 .CurrPower
      = .error ⟨.notFound,
          "Failed to read current power (tried: energy_now, charge_now)"⟩ := by
  constructor
  · exact (resolution_failure_shapes fsPermDenied BAT0 .Cycles).1 "cycle_count"
      ⟨.permissionDenied, "Permission denied (os error 13)"⟩ rfl rfl
  · exact (resolution_failure_shapes fsEmpty BAT0 .CurrPower).2 (by decide)
      (fun n _ => rfl)

/-- C9: numeric attribute resolution trims the resolved content before
parsing, and a parse failure produces an `InvalidData` error — a kind distinct
from the `NotFound` of string resolution — whose message carries the offending
trimmed text and the parser's complaint. -/
theorem numeric_parse_error (width : Nat) (fs : FS) (p : String) (attr : BatteryAttribute) :
    (∀ s perr, read_str_battery_attribute fs p attr = .ok s →
      rustParseUInt width (rustTrim s) = .error perr →
      read_num_battery_attribute width fs p attr
        = .error ⟨.invalidData,
            "invalid battery attribute value: " ++ rustTrim s ++ " (" ++ perr ++ ")"⟩)
    ∧ ErrorKind.invalidData ≠ ErrorKind.notFound := by
  refine ⟨?_, by decide⟩
  intro s perr hs hp
  simp [read_num_battery_attribute, hs, hp]

/-- Witness for C9: a current-power file holding `"abc\n"` yields the
`InvalidData` error carrying the trimmed text `abc`. -/
theorem numeric_parse_error_witness :
    read_num_battery_attribute 32 fsBadNum BAT0 .CurrPower
      = .error ⟨.invalidData,
          "invalid battery attribute value: abc (invalid digit found in string)"⟩ :=
  (numeric_parse_error 32 fsBadNum BAT0 .CurrPower).1 "abc\n"
    "invalid digit found in string" rfl rfl

/-- C4: construction's per-field severity policy — a current-power failure is
fatal with an error naming the attribute and device; a total-power failure
likewise; once both mandatory attributes resolve, construction succeeds with a
fully populated battery, status failure downgraded to Unknown plus a warning,
cycle-count failure absorbed into an absent field, and every warning concerns
only the status or design-power attributes (never cycles). -/
theorem construction_severity_policy (fs : FS) (p : String) :
    (∀ e, read_num_battery_attribute 32 fs p .CurrPower = .error e →
      Battery.new fs p = .error ⟨e.kind,
        "Failed to read " ++ BatteryAttribute.CurrPower.display ++ " for " ++ fileName p
          ++ ": " ++ e.msg⟩)
    ∧ (∀ c e, read_num_battery_attribute 32 fs p .CurrPower = .ok c →
        read_num_battery_attribute 32 fs p .TotalPower = .error e →
        Battery.new fs p = .error ⟨e.kind,
          "Failed to read " ++ BatteryAttribute.TotalPower.display ++ " for " ++ fileName p
            ++ ": " ++ e.msg⟩)
    ∧ (∀ c t, read_num_battery_attribute 32 fs p .CurrPower = .ok c →
        read_num_battery_attribute 32 fs p .TotalPower = .ok t →
        ∃ b w, Battery.new fs p = .ok (b, w)
          ∧ b.path = p ∧ b.curr_power = c ∧ b.total_power = t
          ∧ ((read_str_battery_attribute fs p .Status).toOption = none →
              b.status = .Unknown
              ∧ ∃ msg ∈ w, rustStartsWith msg "Failed to read status" = true)
          ∧ b.cycles = (read_num_battery_attribute 8 fs p .Cycles).toOption
          ∧ (∀ msg ∈ w,
              msg = "Failed to read design power for " ++ fileName p
                  ++ ". Battery health unavailable."
              ∨ ∃ e, read_str_battery_attribute fs p .Status = .error e
                  ∧ msg = "Failed to read status for " ++ fileName p ++ ": " ++ e.msg
                      ++ ". Using 'unknown'.")) := by
  refine ⟨?_, ?_, ?_⟩
  · intro e he
    simp [Battery.new, he]
  · intro c e hc ht
    simp [Battery.new, hc, ht]
  · intro c t hc ht
    refine ⟨{ path := p, total_power := t, curr_power := c, status := (statusPair fs p).1,
              cycles := (read_num_battery_attribute 8 fs p .Cycles).toOption,
              battery_health := (healthPair fs p t (statusPair fs p).2).1 },
            (healthPair fs p t (statusPair fs p).2).2,
            ?_, rfl, rfl, rfl, ?_, rfl, ?_⟩
    · simp [Battery.new, hc, ht]
    · intro hnone
      obtain ⟨e, he⟩ := (exceptToOption_eq_none _).mp hnone
      constructor
      · show (statusPair fs p).1 = .Unknown
        simp [statusPair, he]
      · refine ⟨"Failed to read status for " ++ fileName p ++ ": " ++ e.msg
            ++ ". Using 'unknown'.",
          mem_healthPair_of_mem fs p t _ _ ?_, rfl⟩
        simp [statusPair, he]
    · intro msg hmsg
      have hsw : ∀ m ∈ (statusPair fs p).2,
          ∃ e, read_str_battery_attribute fs p .Status = .error e
            ∧ m = "Failed to read status for " ++ fileName p ++ ": " ++ e.msg
                ++ ". Using 'unknown'." := by
        intro m hm
        unfold statusPair at hm
        cases hst : read_str_battery_attribute fs p .Status with
        | ok s => rw [hst] at hm; simp at hm
        | error e =>
          rw [hst] at hm
          simp at hm
          exact ⟨e, rfl, hm⟩
      unfold healthPair at hmsg
      cases hd : (read_num_battery_attribute 32 fs p .DesignPower).toOption with
      | some design =>
        rw [hd] at hmsg
        by_cases hpos : 0 < design
        · simp only [hpos, if_true] at hmsg
          exact .inr (hsw msg hmsg)
        · simp only [hpos, if_false, List.mem_append, List.mem_singleton] at hmsg
          rcases hmsg with hmem | heq
          · exact .inr (hsw msg hmem)
          · exact .inl heq
      | none =>
        rw [hd] at hmsg
        simp only [List.mem_append, List.mem_singleton] at hmsg
        rcases hmsg with hmem | heq
        · exact .inr (hsw msg hmem)
        · exact .inl heq

/-- Witness for C4: on a directory with no readable files, construction fails
with the wrapped NotFound error naming the current-power attribute and
device. -/
theorem construction_severity_policy_witness :
    Battery.new fsEmpty BAT0
      = .error ⟨.notFound,
          "Failed to read current power for BAT0: Failed to read current power (tried: energy_now, charge_now)"⟩ :=
  (construction_severity_policy fsEmpty BAT0).1
    ⟨.notFound, "Failed to read current power (tried: energy_now, charge_now)"⟩ rfl

/-- C6: a readable status is trimmed, lowercased and compared against
`"charging"` — exactly that string yields `Charging`, anything else
`NotCharging`, never an error, and no status warning is emitted (the warnings
can then only be the design-power warning); `Unknown` occurs if and only if
the status attribute could not be read, and exactly then the status warning is
emitted. -/
theorem status_classification (fs : FS) (p : String) (b : Battery) (w : List String)
    (hok : Battery.new fs p = .ok (b, w)) :
    (∀ s, read_str_battery_attribute fs p .Status = .ok s →
      b.status = (if rustToLowercase (rustTrim s) = "charging" then BatteryStatus.Charging
        else BatteryStatus.NotCharging)
      ∧ (w = [] ∨ w = ["Failed to read design power for " ++ fileName p
            ++ ". Battery health unavailable."]))
    ∧ (∀ e, read_str_battery_attribute fs p .Status = .error e →
      b.status = .Unknown
      ∧ ("Failed to read status for " ++ fileName p ++ ": " ++ e.msg
          ++ ". Using 'unknown'.") ∈ w)
    ∧ (b.status = .Unknown ↔ (read_str_battery_attribute fs p .Status).toOption = none) := by
  obtain ⟨c, t, hc, ht, hb, hw⟩ := new_ok_inv fs p b w hok
  subst hb
  subst hw
  refine ⟨?_, ?_, ?_⟩
  · intro s hs
    constructor
    · show (statusPair fs p).1 = _
      simp [statusPair, hs]
    · have hsw2 : (statusPair fs p).2 = [] := by simp [statusPair, hs]
      show (healthPair fs p t (statusPair fs p).2).2 = _ ∨
        (healthPair fs p t (statusPair fs p).2).2 = _
      rw [hsw2]
      unfold healthPair
      cases (read_num_battery_attribute 32 fs p .DesignPower).toOption with
      | some design =>
        by_cases hpos : 0 < design
        · simp [hpos]
        · simp [hpos]
      | none => simp
  · intro e he
    constructor
    · show (statusPair fs p).1 = _
      simp [statusPair, he]
    · apply mem_healthPair_of_mem
      simp [statusPair, he]
  · constructor
    · intro hun
      cases hst : read_str_battery_attribute fs p .Status with
      | ok s =>
        exfalso
        have : (statusPair fs p).1 = (if rustToLowercase (rustTrim s) = "charging"
            then BatteryStatus.Charging else BatteryStatus.NotCharging) := by
          simp [statusPair, hst]
        rw [this] at hun
        by_cases hch : rustToLowercase (rustTrim s) = "charging"
        · rw [if_pos hch] at hun; cases hun
        · rw [if_neg hch] at hun; cases hun
      | error e => rfl
    · intro hnone
      obtain ⟨e, he⟩ := (exceptToOption_eq_none _).mp hnone
      show (statusPair fs p).1 = _
      simp [statusPair, he]

/-- Witness for C6: the status file `"Charging\n"` classifies as `Charging`
with no warning at all on `fsGood`. -/
theorem status_classification_witness :
    bGood.status = BatteryStatus.Charging := by
  have h := ((status_classification fsGood BAT0 bGood [] rfl).1 "Charging\n" rfl).1
  rw [h]
  rfl

/-- C7: `battery_health` is `Some(total_power / design_power * 100)` exactly
when design power resolves to a strictly positive integer; when it is
unreadable or zero, health is `None` and the design-power warning is appended;
`health_percentage()` returns the stored value. -/
theorem battery_health_policy (fs : FS) (p : String) (b : Battery) (w : List String)
    (hok : Battery.new fs p = .ok (b, w)) :
    (∀ d, read_num_battery_attribute 32 fs p .DesignPower = .ok d → 0 < d →
      b.battery_health = some (F32.finite ((b.total_power : ℚ) / (d : ℚ) * 100)))
    ∧ ((read_num_battery_attribute 32 fs p .DesignPower).toOption = none
        ∨ read_num_battery_attribute 32 fs p .DesignPower = .ok 0 →
      b.battery_health = none
      ∧ ("Failed to read design power for " ++ fileName p
          ++ ". Battery health unavailable.") ∈ w)
    ∧ b.health_percentage = b.battery_health := by
  obtain ⟨c, t, hc, ht, hb, hw⟩ := new_ok_inv fs p b w hok
  subst hb
  subst hw
  refine ⟨?_, ?_, rfl⟩
  · intro d hd hpos
    have hdq : ((d : ℚ)) ≠ 0 := Nat.cast_ne_zero.mpr hpos.ne'
    show (healthPair fs p t (statusPair fs p).2).1 = _
    unfold healthPair
    rw [hd]
    simp [hpos, F32.ofNat, F32.div, F32.mul, hdq, Except.toOption]
  · intro hcase
    have hshape : (healthPair fs p t (statusPair fs p).2).1 = none
        ∧ (healthPair fs p t (statusPair fs p).2).2
          = (statusPair fs p).2 ++ ["Failed to read design power for " ++ fileName p
              ++ ". Battery health unavailable."] := by
      unfold healthPair
      rcases hcase with hnone | hzero
      · rw [hnone]
        exact ⟨rfl, rfl⟩
      · rw [hzero]
        simp [Except.toOption]
    exact ⟨hshape.1, by rw [hshape.2]; simp⟩

/-- Witness for C7: on `fsGood` (total 4000, design 5000) health is 80 %, and
`health_percentage` returns the stored value. -/
theorem battery_health_policy_witness :
    bGood.battery_health = some (F32.finite 80)
    ∧ bGood.health_percentage = bGood.battery_health := by
  constructor
  · have h := (battery_health_policy fsGood BAT0 bGood [] rfl).1 5000 rfl (by decide)
    rw [h]
    norm_num [bGood]
  · exact (battery_health_policy fsGood BAT0 bGood [] rfl).2.2

/-- C1: for every battery and filesystem state, `refresh()` either fails and
leaves every field of the prior snapshot untouched (the post-call battery is
the old one, unchanged), or succeeds and replaces the whole snapshot with the
battery freshly constructed from the same stored path (whose path is again the
stored path). -/
theorem refresh_atomic (fs : FS) (b : Battery) :
    (∀ e, (Battery.refresh fs b).2 = .error e → (Battery.refresh fs b).1 = b)
    ∧ (∀ b' w, Battery.refresh fs b = (b', .ok w) →
        Battery.new fs b.path = .ok (b', w) ∧ b'.path = b.path) := by
  constructor
  · intro e he
    unfold Battery.refresh at he ⊢
    cases hn : Battery.new fs b.path with
    | ok pw =>
      rw [hn] at he
      cases pw
      simp at he
    | error e' => rfl
  · intro b' w h
    unfold Battery.refresh at h
    cases hn : Battery.new fs b.path with
    | ok pw =>
      rw [hn] at h
      cases pw with
      | mk battery warnings =>
        simp only [Prod.mk.injEq, Except.ok.injEq] at h
        obtain ⟨h1, h2⟩ := h
        subst h1
        subst h2
        refine ⟨rfl, ?_⟩
        obtain ⟨c, t, _, _, hb, _⟩ := new_ok_inv fs b.path _ _ hn
        rw [hb]
    | error e' =>
      rw [hn] at h
      simp at h

/-- Witness for C1: a refresh that fails (all files unreadable) leaves the
prior snapshot exactly as it was. -/
theorem refresh_atomic_witness :
    (Battery.refresh fsEmpty batFull).1 = batFull :=
  (refresh_atomic fsEmpty batFull).1
    ⟨.notFound,
      "Failed to read current power for BAT0: Failed to read current power (tried: energy_now, charge_now)"⟩
    rfl

/-- C10: a cycle-count file holding a valid decimal integer greater than 255
(one that parses as `u32` but exceeds `u8::MAX`) is discarded silently —
construction yields `cycles = none` and exactly the same snapshot and warnings
as a device whose cycle counter cannot be read at all. -/
theorem cycles_overflow_indistinguishable (fs fs2 : FS) (p : String)
    (hsame : ∀ attr, attr ≠ BatteryAttribute.Cycles →
      read_str_battery_attribute fs p attr = read_str_battery_attribute fs2 p attr)
    (hbig : ∃ s n, read_str_battery_attribute fs p .Cycles = .ok s
      ∧ rustParseUInt 32 (rustTrim s) = .ok n ∧ 255 < n)
    (hnone : (read_str_battery_attribute fs2 p .Cycles).toOption = none) :
    Battery.new fs p = Battery.new fs2 p
    ∧ ∀ b w, Battery.new fs p = .ok (b, w) → b.cycles = none := by
  obtain ⟨s, n, hs, hn32, hgt⟩ := hbig
  have h8 := parseUInt8_overflow _ _ hn32 hgt
  have hcyc1 : (read_num_battery_attribute 8 fs p .Cycles).toOption = none := by
    simp [read_num_battery_attribute, hs, h8, Except.toOption]
  have hcyc2 : (read_num_battery_attribute 8 fs2 p .Cycles).toOption = none := by
    obtain ⟨e, he⟩ := (exceptToOption_eq_none _).mp hnone
    simp [read_num_battery_attribute, he, Except.toOption]
  have hcurr := read_num_congr 32 fs fs2 p .CurrPower (hsame _ (by decide))
  have htot := read_num_congr 32 fs fs2 p .TotalPower (hsame _ (by decide))
  have hdes := read_num_congr 32 fs fs2 p .DesignPower (hsame _ (by decide))
  have hst : statusPair fs p = statusPair fs2 p := by
    unfold statusPair
    rw [hsame .Status (by decide)]
  have hmain : Battery.new fs p = Battery.new fs2 p := by
    cases hc : read_num_battery_attribute 32 fs2 p .CurrPower with
    | error e =>
      have hc' : read_num_battery_attribute 32 fs p .CurrPower = .error e := by
        rw [hcurr, hc]
      simp [Battery.new, hc, hc']
    | ok c =>
      have hc' : read_num_battery_attribute 32 fs p .CurrPower = .ok c := by
        rw [hcurr, hc]
      cases ht : read_num_battery_attribute 32 fs2 p .TotalPower with
      | error e =>
        have ht' : read_num_battery_attribute 32 fs p .TotalPower = .error e := by
          rw [htot, ht]
        simp [Battery.new, hc, hc', ht, ht']
      | ok t =>
        have ht' : read_num_battery_attribute 32 fs p .TotalPower = .ok t := by
          rw [htot, ht]
        have hhp : healthPair fs p t (statusPair fs2 p).2
            = healthPair fs2 p t (statusPair fs2 p).2 := by
          unfold healthPair
          rw [hdes]
        simp only [Battery.new, hc, hc', ht, ht']
        rw [hst, hcyc1, hcyc2, hhp]
  refine ⟨hmain, ?_⟩
  intro b w h
  obtain ⟨c, t, _, _, hb, _⟩ := new_ok_inv fs p b w h
  rw [hb]
  exact hcyc1

/-- Witness for C10: `fsCycle300` (cycle file `"300\n"`) and `fsCore` (no
cycle file) produce identical construction results, with `cycles = none`. -/
theorem cycles_overflow_indistinguishable_witness :
    Battery.new fsCycle300 BAT0 = Battery.new fsCore BAT0
    ∧ bGood300.cycles = none := by
  have h := cycles_overflow_indistinguishable fsCycle300 fsCore BAT0
    (fun attr ha => by cases attr <;> first | rfl | exact absurd rfl ha)
    ⟨"300\n", 300, rfl, rfl, by decide⟩ rfl
  exact ⟨h.1, h.2 bGood300 [] rfl⟩

end Batty
